import Mathlib

/-!
Verification of the type-signature core of `zbus_xmlgen` (`src/zbus_xmlgen/src/lib.rs`).

The Rust code walks D-Bus signature strings with a peekable byte iterator.
We embed signatures as `List Char` and model every panicking iterator access
(`it.next().unwrap()`, `it.peek().unwrap()`, indexing `vec[0]`) as `none`,
so a `none` result means the Rust function aborts.  The recursive walks are
written with an explicit fuel parameter; `2 * length + 2` fuel is always
enough, since every two nested calls consume at least one character.
-/

namespace ZbusXmlgen

/-- The codes scored `+1` in `estimate_type_complexity` (lines 342-353):
the fixed-size primitives together with the plain string code `s`. -/
def isPlusOneCode (c : Char) : Bool :=
  c = 'y' || c = 'b' || c = 'n' || c = 'q' || c = 'i' || c = 'u' ||
  c = 'x' || c = 't' || c = 'd' || c = 's'

mutual

/-- Fueled embedding of `estimate_type_complexity` (lib.rs lines 338-387).
`let mut score = 0;` then one `match` on the next code; returns the score
and the unconsumed remainder of the iterator.  `none` models a panic of
`it.next().unwrap()` / `it.peek().unwrap()` or fuel exhaustion. -/
def estimA : Nat → List Char → Option (Nat × List Char)
  | 0, _ => none
  | _ + 1, [] => none
  | fuel + 1, c :: rest =>
    let score : Nat := 0
    if isPlusOneCode c then some (score + 1, rest)
    else if c = 'h' then some (score + 10, rest)
    else if c = 'g' || c = 'v' || c = 'o' then some (score * 10, rest)
    else if c = 'a' then
      match rest with
      | [] => none
      | d :: _ =>
        if d = '{' then
          match estimA fuel rest with
          | none => none
          | some (s, r) => some (score * 10 + s, r)
        else
          match estimA fuel rest with
          | none => none
          | some (s, r) => some (score + 5 * s, r)
    else if c = '(' || c = '{' then estimFieldsA fuel (score + 50) rest
    else some (score, rest)

/-- The `loop` of the struct / dict-entry branch of `estimate_type_complexity`
(lib.rs lines 372-382): peek, stop on a closing `)` or `\x7d` (consuming it),
otherwise add `5 *` the next field's estimate. -/
def estimFieldsA : Nat → Nat → List Char → Option (Nat × List Char)
  | 0, _, _ => none
  | _ + 1, _, [] => none
  | fuel + 1, score, c :: rest =>
    if c = ')' || c = '}' then some (score, rest)
    else
      match estimA fuel (c :: rest) with
      | none => none
      | some (s, r) => estimFieldsA fuel (score + 5 * s) r

end

/-- `estimate_type_complexity` run on a whole signature, as
`hide_clippy_type_complexity_lint` (lib.rs lines 133-143) invokes it. -/
def estimateTypeComplexity (sig : List Char) : Option (Nat × List Char) :=
  estimA (2 * sig.length + 2) sig

example : estimateTypeComplexity ['i'] = some (1, []) := by decide

example : estimateTypeComplexity ['(', 'i', 'i', ')'] = some (60, []) := by decide

example : estimateTypeComplexity ['a', '(', 'i', 'i', ')'] = some (300, []) := by decide

example : estimateTypeComplexity ['v'] = some (0, []) := by decide

example : estimateTypeComplexity ['a', '{', 's', 's', '}'] = some (60, []) := by decide

example : estimateTypeComplexity ['a', '{', 's', 'v', '}'] = some (55, []) := by decide

mutual

/-- Fueled embedding of the inner `iter_to_rust_type` of `to_rust_type`
(lib.rs lines 204-299).  One code is consumed and projected to a Rust type
string; recursive calls inside `a`, `(` and `\x7b` pass `as_ref := false`
while keeping `input`.  `none` models a panicking `unwrap` /
`unimplemented!()` or fuel exhaustion. -/
def iterToRustTypeA : Nat → List Char → Bool → Bool → Option (String × List Char)
  | 0, _, _, _ => none
  | _ + 1, [], _, _ => none
  | fuel + 1, c :: rest, input, as_ref =>
    if c = 'y' then some ("u8", rest)
    else if c = 'b' then some ("bool", rest)
    else if c = 'n' then some ("i16", rest)
    else if c = 'q' then some ("u16", rest)
    else if c = 'i' then some ("i32", rest)
    else if c = 'u' then some ("u32", rest)
    else if c = 'x' then some ("i64", rest)
    else if c = 't' then some ("u64", rest)
    else if c = 'd' then some ("f64", rest)
    else if c = 'h' then
      some (if input then "zbus::zvariant::Fd<'_>" else "zbus::zvariant::OwnedFd", rest)
    else if c = 's' then some (if input || as_ref then "&str" else "String", rest)
    else if c = 'o' then
      some (if input then
              if as_ref then "&zbus::zvariant::ObjectPath<'_>"
              else "zbus::zvariant::ObjectPath<'_>"
            else "zbus::zvariant::OwnedObjectPath", rest)
    else if c = 'g' then
      some (if input then
              if as_ref then "&zbus::zvariant::Signature<'_>"
              else "zbus::zvariant::Signature<'_>"
            else "zbus::zvariant::OwnedSignature", rest)
    else if c = 'v' then
      some (if input then
              if as_ref then "&zbus::zvariant::Value<'_>"
              else "zbus::zvariant::Value<'_>"
            else "zbus::zvariant::OwnedValue", rest)
    else if c = 'a' then
      match rest with
      | [] => none
      | d :: _ =>
        if d = '{' then
          match iterToRustTypeA fuel rest input false with
          | none => none
          | some (ty, r) => some ("std::collections::HashMap<" ++ ty ++ ">", r)
        else
          match iterToRustTypeA fuel rest input false with
          | none => none
          | some (ty, r) =>
            if input then some ("&[" ++ ty ++ "]", r)
            else some ((if as_ref then "&" else "") ++ "Vec<" ++ ty ++ ">", r)
    else if c = '(' || c = '{' then
      match structFieldsA fuel rest input with
      | none => none
      | some (fields, r) =>
        if c = '{' then some (String.intercalate ", " fields, r)
        else if fields.length > 1 then
          some ((if as_ref then "&" else "") ++ "(" ++ String.intercalate ", " fields ++ ")", r)
        else
          match fields with
          | [] => none
          | f :: _ => some ((if as_ref then "&" else "") ++ "(" ++ f ++ ",)", r)
    else none

/-- The `loop` of the struct / dict-entry branch of `iter_to_rust_type`
(lib.rs lines 278-288): collect the fields' projections (each with
`as_ref := false`) until a closing `)` or `\x7d` is peeked, consuming it. -/
def structFieldsA : Nat → List Char → Bool → Option (List String × List Char)
  | 0, _, _ => none
  | _ + 1, [], _ => none
  | fuel + 1, c :: rest, input =>
    if c = ')' || c = '}' then some ([], rest)
    else
      match iterToRustTypeA fuel (c :: rest) input false with
      | none => none
      | some (ty, r) =>
        match structFieldsA fuel r input with
        | none => none
        | some (fields, r2) => some (ty :: fields, r2)

end

/-- Embedding of `to_rust_type` (lib.rs lines 202-303): project the type at
the front of the signature, discarding the unconsumed remainder. -/
def toRustType (sig : List Char) (input as_ref : Bool) : Option String :=
  match iterToRustTypeA (2 * sig.length + 2) sig input as_ref with
  | none => none
  | some (ty, _) => some ty

example : toRustType ['u'] false false = some "u32" := by decide

example : toRustType ['s'] false false = some "String" := by decide

example : toRustType ['a', 's'] false false = some "Vec<String>" := by decide

example : toRustType ['a', 's'] true true = some "&[&str]" := by decide

example : toRustType ['a', '{', 's', 'v', '}'] true true =
    some "std::collections::HashMap<&str, zbus::zvariant::Value<'_>>" := by decide

example : toRustType ['a', '{', 's', 'v', '}'] false false =
    some "std::collections::HashMap<String, zbus::zvariant::OwnedValue>" := by decide

example : toRustType ['(', 'i', 'i', ')'] true true = some "&(i32, i32)" := by decide

example : toRustType ['(', 'i', ')'] true true = some "&(i32,)" := by decide

example : toRustType ['(', ')'] true false = none := by decide

/-- The reserved words `KWORDS` (lib.rs lines 305-311). -/
def KWORDS : List String :=
  ["Self", "abstract", "as", "async", "await", "become", "box", "break", "const", "continue",
   "crate", "do", "dyn", "else", "enum", "extern", "false", "final", "fn", "for", "if", "impl",
   "in", "let", "loop", "macro", "match", "mod", "move", "mut", "override", "priv", "pub", "ref",
   "return", "self", "static", "struct", "super", "trait", "true", "try", "type", "typeof",
   "union", "unsafe", "unsized", "use", "virtual", "where", "while", "yield"]

/-- Embedding of `to_identifier` (lib.rs lines 313-319): suffix a reserved
word with an underscore, otherwise rewrite every hyphen to an underscore. -/
def toIdentifier (id : String) : String :=
  if KWORDS.contains id then id ++ "_"
  else ⟨id.data.map fun c => if c = '-' then '_' else c⟩

/-- Embedding of `pascal_case` (lib.rs lines 322-336) on a character list:
an underscore is dropped and capitalizes the next character (ASCII only). -/
def pascalCaseAux : List Char → Bool → List Char
  | [], _ => []
  | c :: rest, capitalize =>
    if c = '_' then pascalCaseAux rest true
    else if capitalize then c.toUpper :: pascalCaseAux rest false
    else c :: pascalCaseAux rest false

/-- Embedding of `pascal_case` (lib.rs lines 322-336). -/
def pascalCase (s : String) : String :=
  ⟨pascalCaseAux s.data true⟩

/-- Modelled from the spec: the external `to_snakecase` conversion (the
`snakecase` crate, not part of this repository) which "converts a raw
member name to the target identifier convention (lower-snake-case)".
We lowercase every ASCII letter and insert an underscore before an
uppercase letter that follows a lowercase letter or a digit. -/
def toSnakecaseAux : List Char → Option Char → List Char
  | [], _ => []
  | c :: rest, prev =>
    if c.isUpper then
      (match prev with
       | some p => if p.isLower || p.isDigit then ['_', c.toLower] else [c.toLower]
       | none => [c.toLower]) ++ toSnakecaseAux rest (some c)
    else c :: toSnakecaseAux rest (some c)

/-- Modelled from the spec: `to_snakecase` on a string. -/
def toSnakecase (s : String) : String :=
  ⟨toSnakecaseAux s.data none⟩

example : toSnakecase "SomeMethod" = "some_method" := by decide

example : pascalCase (toIdentifier (toSnakecase "SomeMethod")) = "SomeMethod" := by decide

example : pascalCase (toIdentifier (toSnakecase "Get-Value")) = "GetValue" := by decide

/-- The direction tag of an argument (`zbus_xml::ArgDirection`). -/
inductive ArgDirection where
  | dirIn : ArgDirection
  | dirOut : ArgDirection
deriving DecidableEq, Repr

/-- An argument of a method or signal as `write_interface` consumes it:
an optional name, an optional direction and the type's signature string. -/
structure Arg where
  name : Option String
  direction : Option ArgDirection
  ty : List Char
deriving DecidableEq, Repr

/-- The name chosen for an argument in `inputs_output_from_args` /
`parse_signal_args` (lib.rs lines 149-152, 158-162): the declared name run
through `to_identifier`, or a generated `arg_{n}` that bumps the counter. -/
def argIdent (a : Arg) (n : Nat) : String × Nat :=
  match a.name with
  | some name => (toIdentifier name, n)
  | none => ("arg_" ++ toString (n + 1), n + 1)

/-- The loop of `inputs_output_from_args` (lib.rs lines 154-170): `In` or
direction-less arguments are projected with `to_rust_type(ty, true, true)`
into the inputs, `Out` arguments with `to_rust_type(ty, false, false)` into
the outputs.  `none` models a panic inside `to_rust_type`. -/
def ioLoop : List Arg → Nat → Option (List String × List String)
  | [], _ => some ([], [])
  | a :: args, n =>
    match a.direction with
    | none | some ArgDirection.dirIn =>
      match toRustType a.ty true true with
      | none => none
      | some ty =>
        let (nm, n2) := argIdent a n
        match ioLoop args n2 with
        | none => none
        | some (ins, outs) => some ((nm ++ ": " ++ ty) :: ins, outs)
    | some ArgDirection.dirOut =>
      match toRustType a.ty false false with
      | none => none
      | some ty =>
        match ioLoop args n with
        | none => none
        | some (ins, outs) => some (ins, ty :: outs)

/-- Embedding of `inputs_output_from_args` (lib.rs lines 145-179): the
parameter list (starting with `&self`) and the ` -> zbus::Result<...>`
return text of a generated method. -/
def inputsOutputFromArgs (args : List Arg) : Option (String × String) :=
  match ioLoop args 0 with
  | none => none
  | some (ins, outs) =>
    let output :=
      match outs with
      | [] => "()"
      | [o] => o
      | _ => "(" ++ String.intercalate ", " outs ++ ")"
    some (String.intercalate ", " ("&self" :: ins), " -> zbus::Result<" ++ output ++ ">")

/-- The loop of `parse_signal_args` (lib.rs lines 189-197): every argument,
whatever its direction, is projected with `to_rust_type(ty, true, false)`. -/
def signalLoop : List Arg → Nat → Option (List String)
  | [], _ => some []
  | a :: args, n =>
    match toRustType a.ty true false with
    | none => none
    | some ty =>
      let (nm, n2) := argIdent a n
      match signalLoop args n2 with
      | none => none
      | some rest => some ((nm ++ ": " ++ ty) :: rest)

/-- Embedding of `parse_signal_args` (lib.rs lines 181-200). -/
def parseSignalArgs (args : List Arg) : Option String :=
  match signalLoop args 0 with
  | none => none
  | some params => some (String.intercalate ", " ("&self" :: params))

example :
    parseSignalArgs [⟨some "p", none, ['o']⟩] =
      some "&self, p: zbus::zvariant::ObjectPath<'_>" := by decide

example :
    inputsOutputFromArgs [⟨some "p", none, ['o']⟩] =
      some ("&self, p: &zbus::zvariant::ObjectPath<'_>", " -> zbus::Result<()>") := by decide

/-- The three lines `write_interface` emits for one signal (lib.rs lines
72-82): the doc comment, the `#[zbus(signal)]` attribute — with a `name`
override exactly when `pascal_case` applied to the normalized identifier
does not reproduce the wire name — and the `fn` declaration, whose return
type is always `zbus::Result<()>`. -/
def signalDecl (sname : String) (args : List Arg) : Option (String × String × String) :=
  match parseSignalArgs args with
  | none => none
  | some argstr =>
    let name := toIdentifier (toSnakecase sname)
    let attr :=
      if pascalCase name ≠ sname then
        "    #[zbus(signal, name = \"" ++ sname ++ "\")]"
      else "    #[zbus(signal)]"
    some ("    /// " ++ sname ++ " signal", attr,
      "    fn " ++ name ++ "(" ++ argstr ++ ") -> zbus::Result<()>;")

/-- The wire-name override decision of `write_interface` for a method
(lib.rs lines 60-65): emit `#[zbus(name = "...")]` exactly when the
snake-cased identifier does not round-trip through `pascal_case`. -/
def methodOverrideLine (mname : String) : Option String :=
  let name := toIdentifier (toSnakecase mname)
  if pascalCase name ≠ mname then some ("    #[zbus(name = \"" ++ mname ++ "\")]")
  else none

/-- The marker emitted by `hide_clippy_lints` when a method has at least
seven arguments (lib.rs lines 120-122). -/
def tooManyArgsLine : String := "    #[allow(clippy::too_many_arguments)]"

/-- The marker emitted by `hide_clippy_type_complexity_lint` (lib.rs
line 140). -/
def typeComplexityLine : String := "    #[allow(clippy::type_complexity)]"

/-- Embedding of `hide_clippy_type_complexity_lint` (lib.rs lines 133-143):
the lines it writes for one signature — the marker exactly when the
signature's complexity estimate is at least 1700.  `none` models a panic
inside `estimate_type_complexity`. -/
def hideClippyTypeComplexityLint (sig : List Char) : Option (List String) :=
  match estimateTypeComplexity sig with
  | none => none
  | some (complexity, _) =>
    if complexity ≥ 1700 then some [typeComplexityLine] else some []

/-- The loop of `hide_clippy_lints` (lib.rs lines 125-128): the
type-complexity lines of every argument, in order. -/
def complexityLintLines : List Arg → Option (List String)
  | [] => some []
  | a :: args =>
    match hideClippyTypeComplexityLint a.ty with
    | none => none
    | some l =>
      match complexityLintLines args with
      | none => none
      | some ls => some (l ++ ls)

/-- Embedding of `hide_clippy_lints` (lib.rs lines 117-131): the
too-many-arguments marker when the method has at least 7 arguments,
followed by the per-argument type-complexity markers. -/
def hideClippyLints (args : List Arg) : Option (List String) :=
  match complexityLintLines args with
  | none => none
  | some ls => some ((if args.length ≥ 7 then [tooManyArgsLine] else []) ++ ls)

/-- Embedding of the `Display` implementation for `GenTrait` (lib.rs lines
20-35): the outcome of `format_generated_code` (an external `rustfmt`
subprocess, abstracted as an `Except` value) is written through when it is
`ok`, and the unformatted text is written when it is an error. -/
def genTraitFmt (fmtResult : Except String String) (unformatted : String) : String :=
  match fmtResult with
  | Except.ok formatted => formatted
  | Except.error _ => unformatted

/-- The index of the last `.` in a character list, as
`iface.name().rfind(Char.ofNat 46)` computes it (lib.rs line 40). -/
def rfindDot : List Char → Option Nat
  | [] => none
  | c :: rest =>
    match rfindDot rest with
    | some i => some (i + 1)
    | none => if c = '.' then some 0 else none

/-- The trait name chosen by `write_interface` (lib.rs lines 40-41):
everything after the last `.` of the interface's wire name.  `none` models
the panic of `rfind(...).unwrap()` when the name has no dot, which aborts
emission before anything is written. -/
def writeInterfaceTraitName (name : String) : Option String :=
  match rfindDot name.data with
  | none => none
  | some i => some ⟨name.data.drop (i + 1)⟩

example : writeInterfaceTraitName "org.freedesktop.DBus" = some "DBus" := by decide

example : writeInterfaceTraitName "NoDotHere" = none := by decide

example : signalDecl "Changed" [] =
    some ("    /// Changed signal", "    #[zbus(signal)]",
      "    fn changed(&self) -> zbus::Result<()>;") := by decide

/-- The score `estimate_type_complexity` gives a single non-container code:
1 for a primitive or plain string, 10 for the handle code, 0 otherwise. -/
def leafScore (c : Char) : Nat :=
  if isPlusOneCode c then 1 else if c = 'h' then 10 else 0

/-- The single-character codes that stand for a complete type usable inside
a dict entry: primitives, strings, the handle, object-path, signature-value
and variant codes. -/
def leafCodes : List Char :=
  ['y', 'b', 'n', 'q', 'i', 'u', 'x', 't', 'd', 's', 'h', 'o', 'g', 'v']

/-- C1, counterexample: the struct `(ii)` scores 60, but wrapping it behind
the variant code does not multiply that accumulated score by 10 — the
estimator consumes only the `v` and returns 0 (`score *= 10` acts on the
fresh accumulator, which is still 0), leaving the struct unread. -/
theorem estimate_variant_wrapper_not_times_ten :
    estimateTypeComplexity ['(', 'i', 'i', ')'] = some (60, []) ∧
    estimateTypeComplexity ['v', '(', 'i', 'i', ')'] = some (0, ['(', 'i', 'i', ')']) ∧
    estimateTypeComplexity ['v'] = some (0, []) ∧
    (0 : Nat) ≠ 10 * 60 := by
  decide

/-- C1, amended: consuming a leading object-path, signature-value or variant
code multiplies the running score by 10, but the running score is always 0
at that point (each walk starts from a fresh zero accumulator), so every
signature beginning with `o`, `g` or `v` is estimated at 0 and the rest of
the signature is left unconsumed. -/
theorem estimate_textual_variant_head_scores_zero :
    ∀ rest : List Char,
      estimateTypeComplexity ('o' :: rest) = some (0, rest) ∧
      estimateTypeComplexity ('g' :: rest) = some (0, rest) ∧
      estimateTypeComplexity ('v' :: rest) = some (0, rest) := by
  intro rest
  exact ⟨rfl, rfl, rfl⟩

/-- C2, counterexample: for the map `a\x7bss\x7d` the estimator yields 60,
not `0 * 10 + 1` as the claim predicts (value estimate alone), and changing
only the key (`a\x7bhs\x7d`, 105) changes the score, so the key does
contribute. -/
theorem estimate_map_key_and_block_counterexample :
    estimateTypeComplexity ['a', '{', 's', 's', '}'] = some (60, []) ∧
    estimateTypeComplexity ['a', '{', 'h', 's', '}'] = some (105, []) ∧
    estimateTypeComplexity ['s'] = some (1, []) ∧
    (60 : Nat) ≠ 0 * 10 + 1 ∧
    (105 : Nat) ≠ (60 : Nat) := by
  decide

/-- C2, amended: for an array-of-dict-entry signature the estimator
multiplies the accumulated score (still 0) by 10 and then adds the estimate
of the whole dict-entry block — a flat 50 plus 5 times the key's estimate
plus 5 times the value's estimate — so the key contributes as well. -/
theorem estimate_map_adds_dict_entry_block :
    (∀ k, k ∈ leafCodes → ∀ v, v ∈ leafCodes →
      estimateTypeComplexity ['a', '{', k, v, '}'] =
        some (0 * 10 + (50 + 5 * leafScore k + 5 * leafScore v), [])) ∧
    estimateTypeComplexity ['a', '{', 's', '(', 'i', 'i', ')', '}'] =
      some (0 * 10 + (50 + 5 * 1 + 5 * 60), []) := by
  decide

/-- C2, witness: the amended rule applied to the concrete map `a\x7bss\x7d`. -/
theorem estimate_map_adds_dict_entry_block_witness :
    estimateTypeComplexity ['a', '{', 's', 's', '}'] =
      some (0 * 10 + (50 + 5 * leafScore 's' + 5 * leafScore 's'), []) :=
  estimate_map_adds_dict_entry_block.1 's' (by decide) 's' (by decide)

/-- C5: a single primitive scores exactly 1, the struct `(ii)` scores
exactly 60, and the array `a(ii)` scores exactly 300. -/
theorem complexity_scores_primitive_struct_array :
    estimateTypeComplexity ['y'] = some (1, []) ∧
    estimateTypeComplexity ['b'] = some (1, []) ∧
    estimateTypeComplexity ['n'] = some (1, []) ∧
    estimateTypeComplexity ['q'] = some (1, []) ∧
    estimateTypeComplexity ['i'] = some (1, []) ∧
    estimateTypeComplexity ['u'] = some (1, []) ∧
    estimateTypeComplexity ['x'] = some (1, []) ∧
    estimateTypeComplexity ['t'] = some (1, []) ∧
    estimateTypeComplexity ['d'] = some (1, []) ∧
    estimateTypeComplexity ['(', 'i', 'i', ')'] = some (60, []) ∧
    estimateTypeComplexity ['a', '(', 'i', 'i', ')'] = some (300, []) := by
  decide

/-- C3, counterexample: projecting `a\x7bsv\x7d` in input position yields a
map keyed by the borrowed `&str` over the borrowed `Value`, not the owned
`String` over `OwnedValue` the claim states. -/
theorem project_map_input_not_owned :
    toRustType ['a', '{', 's', 'v', '}'] true true =
      some "std::collections::HashMap<&str, zbus::zvariant::Value<'_>>" ∧
    toRustType ['a', '{', 's', 'v', '}'] true true ≠
      some "std::collections::HashMap<String, zbus::zvariant::OwnedValue>" := by
  decide

/-- C3, amended: inside a map, array or struct the nested element types are
projected with the by-reference flag cleared but the input/output position
preserved; only the outermost construct honors the by-reference request.
So `a\x7bsv\x7d` projects to `HashMap<&str, Value>` in input position and
to `HashMap<String, OwnedValue>` in output position, independent of the
by-reference flag, while the struct `(ss)` takes the leading `&` from the
outer flag only. -/
theorem nested_projection_clears_by_ref_keeps_position :
    ∀ r : Bool,
      toRustType ['a', '{', 's', 'v', '}'] true r =
        some "std::collections::HashMap<&str, zbus::zvariant::Value<'_>>" ∧
      toRustType ['a', '{', 's', 'v', '}'] false r =
        some "std::collections::HashMap<String, zbus::zvariant::OwnedValue>" ∧
      toRustType ['a', 's'] true r = some "&[&str]" ∧
      toRustType ['(', 's', 's', ')'] false r =
        some ((if r then "&" else "") ++ "(String, String)") := by
  decide

/-- C8, counterexample: when the external formatter runs but produces no
output (`format_generated_code` returns `Ok` of the empty string), the
empty string is written through — the unformatted text is not restored. -/
theorem formatter_empty_output_not_fallback :
    genTraitFmt (Except.ok "") "fn x();" = "" ∧ ("" : String) ≠ "fn x();" := by
  exact ⟨rfl, by decide⟩

/-- C8, amended: when `format_generated_code` fails (the formatter could not
be started or any pipe I/O with it errored), the unformatted text is
emitted unchanged — failure is never fatal; when it succeeds, its output is
emitted as is, even when that output is empty. -/
theorem formatter_error_falls_back :
    (∀ (e u : String), genTraitFmt (Except.error e) u = u) ∧
    (∀ (s u : String), genTraitFmt (Except.ok s) u = s) :=
  ⟨fun _ _ => rfl, fun _ _ => rfl⟩

/-- C10: projecting the zero-field struct signature `()` aborts — the
field list is empty and `vec[0]` panics — for every combination of the
position and by-reference flags, while the one-field struct `(i)` projects
normally. -/
theorem empty_struct_projection_aborts :
    (∀ input as_ref : Bool, toRustType ['(', ')'] input as_ref = none) ∧
    toRustType ['(', 'i', ')'] false false = some "(i32,)" := by
  decide

/-- C7: an explicit wire-name override is emitted for a method exactly when
converting the normalized snake-case identifier back to upper camel case
does not reproduce the original name; `SomeMethod` round-trips and gets no
override, `Get-Value` does not and carries the literal original name. -/
theorem override_iff_pascal_roundtrip_fails :
    (∀ mname : String,
      methodOverrideLine mname = none ↔
        pascalCase (toIdentifier (toSnakecase mname)) = mname) ∧
    (∀ mname : String,
      methodOverrideLine mname = some ("    #[zbus(name = \"" ++ mname ++ "\")]") ↔
        pascalCase (toIdentifier (toSnakecase mname)) ≠ mname) ∧
    methodOverrideLine "SomeMethod" = none ∧
    methodOverrideLine "Get-Value" = some "    #[zbus(name = \"Get-Value\")]" := by
  refine ⟨?_, ?_, by decide, by decide⟩
  · intro m
    simp only [methodOverrideLine]
    split <;> simp_all
  · intro m
    simp only [methodOverrideLine]
    split <;> simp_all

/-- `rfind` of a dot finds nothing in a dot-free list. -/
theorem rfindDot_of_not_mem : ∀ l : List Char, '.' ∉ l → rfindDot l = none := by
  intro l h
  induction l with
  | nil => rfl
  | cons c rest ih =>
    simp only [List.mem_cons, not_or] at h
    rw [rfindDot, ih h.2]
    simp [Ne.symm h.1]

/-- `rfind` of a dot on a list ending in a dot-free suffix after a dot
returns the position of that dot. -/
theorem rfindDot_append : ∀ pre post : List Char, '.' ∉ post →
    rfindDot (pre ++ '.' :: post) = some pre.length := by
  intro pre post h
  induction pre with
  | nil =>
    rw [List.nil_append, rfindDot, rfindDot_of_not_mem post h]
    simp
  | cons c pre ih =>
    rw [List.cons_append, rfindDot, ih]
    simp

/-- C9: when an interface's wire name has no dot, `write_interface` aborts
before emitting anything (the `rfind` result is unwrapped unconditionally);
when it has one, the generated trait is named by the substring after the
last dot. -/
theorem trait_name_after_last_dot_or_abort :
    (∀ name : String, '.' ∉ name.data → writeInterfaceTraitName name = none) ∧
    (∀ pre post : List Char, '.' ∉ post →
      writeInterfaceTraitName ⟨pre ++ '.' :: post⟩ = some ⟨post⟩) := by
  constructor
  · intro name h
    simp only [writeInterfaceTraitName]
    rw [rfindDot_of_not_mem name.data h]
  · intro pre post h
    simp only [writeInterfaceTraitName]
    rw [rfindDot_append pre post h]
    have hd : (pre ++ '.' :: post).drop (pre.length + 1) = post := by
      have h2 : pre ++ '.' :: post = (pre ++ ['.']) ++ post := by simp
      have h3 : pre.length + 1 = (pre ++ ['.']).length := by simp
      rw [h2, h3, List.drop_left]
    simp [hd]

/-- C9, witness: the dot-free name `NoDotHere` aborts, and
`org.freedesktop.DBus` (split around its last dot) yields the trait name
`DBus`. -/
theorem trait_name_after_last_dot_or_abort_witness :
    writeInterfaceTraitName "NoDotHere" = none ∧
    writeInterfaceTraitName ⟨"org.freedesktop".data ++ '.' :: "DBus".data⟩ =
      some ⟨"DBus".data⟩ :=
  ⟨trait_name_after_last_dot_or_abort.1 "NoDotHere" (by decide),
   trait_name_after_last_dot_or_abort.2 "org.freedesktop".data "DBus".data (by decide)⟩

/-- C4, counterexample: an object-path argument is rendered
`zbus::zvariant::ObjectPath` in a signal's parameter list but
`&zbus::zvariant::ObjectPath` in a method's input list — signal parameters
are not built exactly as method inputs (the by-reference flag differs). -/
theorem signal_params_differ_from_method_inputs :
    parseSignalArgs [⟨some "p", none, ['o']⟩] =
      some "&self, p: zbus::zvariant::ObjectPath<'_>" ∧
    inputsOutputFromArgs [⟨some "p", none, ['o']⟩] =
      some ("&self, p: &zbus::zvariant::ObjectPath<'_>", " -> zbus::Result<()>") ∧
    ("&self, p: zbus::zvariant::ObjectPath<'_>" : String) ≠
      "&self, p: &zbus::zvariant::ObjectPath<'_>" := by
  decide

/-- C4, amended: a signal's parameter list is built like a method's inputs
except that every argument is included regardless of direction and each is
projected as an input type with the by-reference flag false (methods use
true); the return type is always the fixed `zbus::Result<()>` and the
declaration carries a tag identifying the member as a signal.  The tag is
pinned exactly: the plain `#[zbus(signal)]` when the normalized identifier
case-round-trips to the wire name, and the name-override form otherwise,
as the non-round-tripping `Get-Value` exercises concretely. -/
theorem signal_decl_params_flag_and_result :
    (∀ (sname : String) (args : List Arg) (doc attr fn : String),
      signalDecl sname args = some (doc, attr, fn) →
        (∃ argstr, parseSignalArgs args = some argstr ∧
          fn = "    fn " ++ toIdentifier (toSnakecase sname) ++ "(" ++ argstr ++
            ") -> zbus::Result<()>;") ∧
        (pascalCase (toIdentifier (toSnakecase sname)) = sname →
          attr = "    #[zbus(signal)]") ∧
        (pascalCase (toIdentifier (toSnakecase sname)) ≠ sname →
          attr = "    #[zbus(signal, name = \"" ++ sname ++ "\")]")) ∧
    signalDecl "Get-Value" [] =
      some ("    /// Get-Value signal", "    #[zbus(signal, name = \"Get-Value\")]",
        "    fn get_value(&self) -> zbus::Result<()>;") ∧
    signalDecl "Changed" [] =
      some ("    /// Changed signal", "    #[zbus(signal)]",
        "    fn changed(&self) -> zbus::Result<()>;") ∧
    parseSignalArgs [⟨some "p", some ArgDirection.dirOut, ['i']⟩] = some "&self, p: i32" ∧
    inputsOutputFromArgs [⟨some "p", some ArgDirection.dirOut, ['i']⟩] =
      some ("&self", " -> zbus::Result<i32>") := by
  refine ⟨?_, by decide, by decide, by decide, by decide⟩
  intro sname args doc attr fn h
  simp only [signalDecl] at h
  cases hp : parseSignalArgs args with
  | none => rw [hp] at h; simp at h
  | some argstr =>
    rw [hp] at h
    simp only [Option.some.injEq, Prod.mk.injEq] at h
    obtain ⟨-, hattr, hfn⟩ := h
    refine ⟨⟨argstr, rfl, hfn.symm⟩, ?_, ?_⟩
    · intro hc
      rw [← hattr, if_neg (not_not_intro hc)]
    · intro hc
      rw [← hattr, if_pos hc]

/-- C4, witness: the amended statement applied to the argument-less signal
`Get-Value`, whose identifier does not case-round-trip, so the attribute
is forced to the name-override form. -/
theorem signal_decl_params_flag_and_result_witness :
    (∃ argstr, parseSignalArgs ([] : List Arg) = some argstr ∧
      "    fn get_value(&self) -> zbus::Result<()>;" =
        "    fn " ++ toIdentifier (toSnakecase "Get-Value") ++ "(" ++ argstr ++
          ") -> zbus::Result<()>;") ∧
    ("    #[zbus(signal, name = \"Get-Value\")]" : String) =
      "    #[zbus(signal, name = \"" ++ "Get-Value" ++ "\")]" :=
  have h := signal_decl_params_flag_and_result.1 "Get-Value" []
    "    /// Get-Value signal" "    #[zbus(signal, name = \"Get-Value\")]"
    "    fn get_value(&self) -> zbus::Result<()>;" (by decide)
  ⟨h.1, h.2.2 (by decide)⟩

/-- The per-argument lint lines: no too-many-arguments marker ever appears
among them, and the type-complexity marker appears exactly when some
argument's signature estimates to at least 1700. -/
theorem complexityLintLines_spec : ∀ (args : List Arg) (ls : List String),
    complexityLintLines args = some ls →
    tooManyArgsLine ∉ ls ∧
    ((typeComplexityLine ∈ ls) ↔
      ∃ a ∈ args, ∃ sc r, estimateTypeComplexity a.ty = some (sc, r) ∧ 1700 ≤ sc) := by
  intro args
  induction args with
  | nil =>
    intro ls h
    simp only [complexityLintLines, Option.some.injEq] at h
    subst h
    simp
  | cons a args ih =>
    intro ls h
    simp only [complexityLintLines] at h
    cases hh : hideClippyTypeComplexityLint a.ty with
    | none => rw [hh] at h; simp at h
    | some l =>
      rw [hh] at h
      cases hr : complexityLintLines args with
      | none => rw [hr] at h; simp at h
      | some ls2 =>
        rw [hr] at h
        simp only [Option.some.injEq] at h
        subst h
        obtain ⟨hn, hiff⟩ := ih ls2 hr
        simp only [hideClippyTypeComplexityLint] at hh
        cases he : estimateTypeComplexity a.ty with
        | none => rw [he] at hh; simp at hh
        | some p =>
          obtain ⟨sc, r⟩ := p
          rw [he] at hh
          simp only [ge_iff_le] at hh
          by_cases hsc : 1700 ≤ sc
          · rw [if_pos hsc] at hh
            simp only [Option.some.injEq] at hh
            subst hh
            constructor
            · intro hm
              rcases List.mem_append.mp hm with hm1 | hm2
              · exact absurd (List.mem_singleton.mp hm1) (by decide)
              · exact hn hm2
            · constructor
              · intro _
                exact ⟨a, List.mem_cons_self a args, sc, r, he, hsc⟩
              · intro _
                exact List.mem_append.mpr (Or.inl (List.mem_singleton.mpr rfl))
          · rw [if_neg hsc] at hh
            simp only [Option.some.injEq] at hh
            subst hh
            simp only [List.nil_append]
            refine ⟨hn, hiff.trans ?_⟩
            constructor
            · intro hex
              obtain ⟨b, hb, hbsc⟩ := hex
              exact ⟨b, List.mem_cons_of_mem a hb, hbsc⟩
            · intro hex
              obtain ⟨b, hb, sc2, r2, hb2, hb3⟩ := hex
              rcases List.mem_cons.mp hb with hba | hbm
              · subst hba
                rw [he] at hb2
                simp only [Option.some.injEq, Prod.mk.injEq] at hb2
                exact absurd (hb2.1 ▸ hb3) hsc
              · exact ⟨b, hbm, sc2, r2, hb2, hb3⟩

/-- C6: `hide_clippy_lints` attaches the too-many-parameters marker exactly
when the method has at least 7 arguments, and the type-complexity marker
exactly when some argument's signature scores at least 1700;
`hide_clippy_type_complexity_lint` emits the marker for a signature (a
method argument's or a property getter's) exactly when its score is at
least 1700. -/
theorem clippy_markers_iff_thresholds :
    (∀ (args : List Arg) (ls : List String), hideClippyLints args = some ls →
      ((tooManyArgsLine ∈ ls) ↔ 7 ≤ args.length) ∧
      ((typeComplexityLine ∈ ls) ↔
        ∃ a ∈ args, ∃ sc r, estimateTypeComplexity a.ty = some (sc, r) ∧ 1700 ≤ sc)) ∧
    (∀ (sig : List Char) (sc : Nat) (r : List Char),
      estimateTypeComplexity sig = some (sc, r) →
      (hideClippyTypeComplexityLint sig = some [typeComplexityLine] ↔ 1700 ≤ sc)) := by
  constructor
  · intro args ls h
    simp only [hideClippyLints] at h
    cases hc : complexityLintLines args with
    | none => rw [hc] at h; simp at h
    | some cls =>
      rw [hc] at h
      simp only [Option.some.injEq, ge_iff_le] at h
      subst h
      obtain ⟨hn, hiff⟩ := complexityLintLines_spec args cls hc
      by_cases hlen : 7 ≤ args.length
      · rw [if_pos hlen]
        constructor
        · simp [hlen]
        · simpa [List.mem_append, show tooManyArgsLine ≠ typeComplexityLine from by decide,
            fun h => (show typeComplexityLine ≠ tooManyArgsLine from by decide) h] using hiff
      · rw [if_neg hlen]
        simp only [List.nil_append]
        exact ⟨⟨fun hm => absurd hm hn, fun hm => absurd hm hlen⟩, hiff⟩
  · intro sig sc r he
    simp only [hideClippyTypeComplexityLint, he, ge_iff_le]
    by_cases hsc : 1700 ≤ sc
    · simp [hsc]
    · simp only [if_neg hsc]
      constructor
      · intro hcon
        simp at hcon
      · intro hcon
        exact absurd hcon hsc

/-- C6, witness: seven plain `i32` arguments get the too-many-parameters
marker and nothing else; the deeply nested struct `(((ii)))` scores 1800
and gets the type-complexity marker. -/
theorem clippy_markers_iff_thresholds_witness :
    (((tooManyArgsLine ∈ [tooManyArgsLine]) ↔
        7 ≤ (List.replicate 7 (⟨none, some ArgDirection.dirIn, ['i']⟩ : Arg)).length) ∧
      ((typeComplexityLine ∈ [tooManyArgsLine]) ↔
        ∃ a ∈ List.replicate 7 (⟨none, some ArgDirection.dirIn, ['i']⟩ : Arg),
          ∃ sc r, estimateTypeComplexity a.ty = some (sc, r) ∧ 1700 ≤ sc)) ∧
    (hideClippyTypeComplexityLint ['(', '(', '(', 'i', 'i', ')', ')', ')'] =
        some [typeComplexityLine] ↔ 1700 ≤ 1800) :=
  ⟨clippy_markers_iff_thresholds.1
      (List.replicate 7 (⟨none, some ArgDirection.dirIn, ['i']⟩ : Arg))
      [tooManyArgsLine] (by decide),
   clippy_markers_iff_thresholds.2 ['(', '(', '(', 'i', 'i', ')', ')', ')'] 1800 []
      (by decide)⟩

end ZbusXmlgen
